import Mathlib

/-!
Verification of the declaration-block tokeniser and syntax-tree parser
(src/libs/parser/DefBlockSyntaxParser.h) and the declaration registry
(src/radiantcore/decl/DeclarationManager.h).

Text is modelled as `List Char`. The brace characters are written via their
hex escapes throughout.
-/

namespace DefBlock

/-- Token types, mirroring `DefSyntaxToken::Type`. -/
inductive DefTokenType where
  | nothing
  | whitespace
  | bracedBlock
  | token
  | eolComment
  | blockComment
deriving DecidableEq, Repr

/-- Mirrors `DefSyntaxToken`: a token type plus the raw text parsed from the source. -/
structure DefSyntaxToken where
  type : DefTokenType
  value : List Char
deriving DecidableEq, Repr

/-- Mirrors the tokeniser state enumeration `DefBlockSyntaxTokeniserFunc::State`. -/
inductive TokState where
  | searching
  | whitespace
  | token
  | bracedBlock
  | quotedStringWithinBlock
  | blockComment
  | eolComment
deriving DecidableEq, Repr

/-- The character constant `OpeningBrace`. -/
def openingBrace : Char := '\x7b'

/-- The character constant `ClosingBrace`. -/
def closingBrace : Char := '\x7d'

/-- The double-quote character. -/
def quoteChar : Char := '\x22'

/-- Mirrors `DefBlockSyntaxTokeniserFunc::IsWhitespace`, whose delimiter set
is `Delims = " \t\n\v\r"`. -/
def IsWhitespace (c : Char) : Bool :=
  c = ' ' || c = '\t' || c = '\n' || c = '\x0b' || c = '\r'

/-- Mirrors the `while (next != end)` loop body of
`DefBlockSyntaxTokeniserFunc::operator()`. The first argument is `_state`,
the second `openedBlocks`, the third the token accumulated in `tok`, the
fourth the remaining characters (the range `next..end`). The result is
`(some tok, rest)` where the C++ code returns `true`, and `(none, rest)`
where it returns `false`.

One place in the C++ advances `next` past `end` (undefined behaviour for a
string iterator): the fall-through in the `State::Searching` slash branch
when the slash is the last character. Here the advance past the end is
clamped to the end so that this function stays total; `tokFuncPos` below
models the cursor faithfully and exhibits the out-of-bounds loop entry on
that path. The clamping is observable only on inputs whose final character
is a slash that does not close a comment. -/
def tokFunc : TokState → Nat → DefSyntaxToken → List Char →
    Option DefSyntaxToken × List Char
  -- Loop exit: `return !tok.value.empty();`
  | _, _, tok, [] => (if tok.value = [] then none else some tok, [])
  | .searching, opened, tok, ch :: rest =>
    if IsWhitespace ch then
      tokFunc .whitespace opened ⟨.whitespace, tok.value ++ [ch]⟩ rest
    else if ch = openingBrace then
      tokFunc .bracedBlock 1 ⟨.bracedBlock, tok.value ++ [ch]⟩ rest
    else if ch = '/' then
      -- `tok.value += ch; ++next;` then the next character is inspected.
      match rest with
      | [] =>
        -- `next == end`: fall through, appending the slash a second time
        -- and advancing `next` past the end (undefined behaviour in C++).
        tokFunc .token opened ⟨.token, tok.value ++ ['/', '/']⟩ []
      | c :: rest2 =>
        if c = '*' then
          tokFunc .blockComment opened ⟨.blockComment, tok.value ++ ['/', '*']⟩ rest2
        else if c = '/' then
          tokFunc .eolComment opened ⟨.eolComment, tok.value ++ ['/', '/']⟩ rest2
        else
          -- Fall through to the generic branch: `tok.value += ch; ++next;`
          -- appends the slash a second time and skips `c`.
          tokFunc .token opened ⟨.token, tok.value ++ ['/', '/']⟩ rest2
    else
      tokFunc .token opened ⟨.token, tok.value ++ [ch]⟩ rest
  | .bracedBlock, opened, tok, ch :: rest =>
    -- `tok.value += ch; ++next;` happens in any case.
    if ch = openingBrace then
      tokFunc .bracedBlock (opened + 1) ⟨tok.type, tok.value ++ [ch]⟩ rest
    else if ch = closingBrace then
      -- `else if (ch == ClosingBrace && --openedBlocks == 0) return true;`
      -- `opened` is at least 1 whenever this state is reached, so the
      -- `size_t` decrement never wraps.
      if opened - 1 = 0 then (some ⟨tok.type, tok.value ++ [ch]⟩, rest)
      else tokFunc .bracedBlock (opened - 1) ⟨tok.type, tok.value ++ [ch]⟩ rest
    else if ch = quoteChar then
      tokFunc .quotedStringWithinBlock opened ⟨tok.type, tok.value ++ [ch]⟩ rest
    else
      tokFunc .bracedBlock opened ⟨tok.type, tok.value ++ [ch]⟩ rest
  | .quotedStringWithinBlock, opened, tok, ch :: rest =>
    if ch = quoteChar then
      tokFunc .bracedBlock opened ⟨tok.type, tok.value ++ [ch]⟩ rest
    else
      tokFunc .quotedStringWithinBlock opened ⟨tok.type, tok.value ++ [ch]⟩ rest
  | .whitespace, opened, tok, ch :: rest =>
    if IsWhitespace ch then
      tokFunc .whitespace opened ⟨tok.type, tok.value ++ [ch]⟩ rest
    else
      -- Ran out of whitespace, return token; `next` stays on `ch`.
      (some tok, ch :: rest)
  | .blockComment, opened, tok, ch :: rest =>
    -- `tok.value += ch; ++next;` then check for the closing `*/`.
    if ch = '*' then
      match rest with
      | '/' :: rest2 => (some ⟨tok.type, tok.value ++ ['*', '/']⟩, rest2)
      | _ => tokFunc .blockComment opened ⟨tok.type, tok.value ++ [ch]⟩ rest
    else
      tokFunc .blockComment opened ⟨tok.type, tok.value ++ [ch]⟩ rest
  | .eolComment, opened, tok, ch :: rest =>
    if ch = '\r' || ch = '\n' then
      -- Stop here, leave `next` where it is.
      (some tok, ch :: rest)
    else
      tokFunc .eolComment opened ⟨tok.type, tok.value ++ [ch]⟩ rest
  | .token, opened, tok, ch :: rest =>
    if ch = openingBrace || ch = closingBrace then
      (some tok, ch :: rest)
    else if ch = '/' then
      -- `next.peek()` looks at the character after the slash and yields
      -- the null character at the end of the input.
      let nextChar := match rest with | [] => '\x00' | c :: _ => c
      if nextChar = '*' || nextChar = '/' then (some tok, ch :: rest)
      else tokFunc .token opened ⟨tok.type, tok.value ++ [ch]⟩ rest
    else if IsWhitespace ch then
      (some tok, ch :: rest)
    else
      tokFunc .token opened ⟨tok.type, tok.value ++ [ch]⟩ rest

/-- One invocation of `DefBlockSyntaxTokeniserFunc::operator()`: the state is
reset to `Searching`, the token cleared and `openedBlocks` set to zero. -/
def nextToken (input : List Char) : Option DefSyntaxToken × List Char :=
  tokFunc .searching 0 ⟨.nothing, []⟩ input

/-- The token stream produced by `string::Tokeniser` (not under src/): per the
contract documented on `DefBlockSyntaxTokeniserFunc::operator()`, the functor
is invoked repeatedly, each invocation yielding the next token, until it
returns false. Fuel-based so that closed terms reduce; one unit of fuel per
emitted token, and each successful invocation consumes at least one character,
so `input.length + 1` units always suffice (see `tokeniseFuel_congr`). -/
def tokeniseFuel : Nat → List Char → List DefSyntaxToken
  | 0, _ => []
  | fuel + 1, input =>
    match nextToken input with
    | (none, _) => []
    | (some tok, rest) => tok :: tokeniseFuel fuel rest

/-- Cuts the whole input into the sequence of tokens seen by the parser. -/
def tokenise (input : List Char) : List DefSyntaxToken :=
  tokeniseFuel (input.length + 1) input

/-- Outcome of one `operator()` invocation in the position-based cursor model:
`found` is `return true` (with the final cursor position), `exhausted` is
`return false`, and `outOfBounds` marks the loop being entered with a cursor
strictly past the end — the loop guard `next != end` holds but `*next` reads
out of bounds, which is undefined behaviour in the C++. -/
inductive TokOutcome where
  | found (tok : DefSyntaxToken) (pos : Nat)
  | exhausted (pos : Nat)
  | outOfBounds (pos : Nat)
deriving DecidableEq, Repr

/-- Faithful cursor model of `DefBlockSyntaxTokeniserFunc::operator()` over
the `StringIteratorAdapter` (DefBlockSyntaxParser.h:525-572): the cursor is a
position into the fixed input, the loop guard `next != end` is position
inequality against `input.length`, and advancing is `pos + 1` with no bounds
check, exactly like the raw string iterator. When the guard holds but the
position is past the end (reachable only through the `State::Searching` slash
fall-through, which advances the cursor twice while the inner check already
saw `next == end`), the loop body would dereference an out-of-bounds cursor:
the model stops there with `outOfBounds`, the point where the C++ behaviour
becomes undefined. On every run that stays in bounds this agrees with
`tokFunc`. -/
def tokFuncPos (st : TokState) (opened : Nat) (tok : DefSyntaxToken)
    (input : List Char) (pos : Nat) : TokOutcome :=
  if pos = input.length then
    -- `next == end`: loop exit, `return !tok.value.empty();`
    if tok.value = [] then .exhausted pos else .found tok pos
  else if hlt : pos < input.length then
    -- `char ch = *next;`
    let ch := input[pos]
    match st with
    | .searching =>
      if IsWhitespace ch then
        tokFuncPos .whitespace opened ⟨.whitespace, tok.value ++ [ch]⟩ input (pos + 1)
      else if ch = openingBrace then
        tokFuncPos .bracedBlock 1 ⟨.bracedBlock, tok.value ++ [ch]⟩ input (pos + 1)
      else if ch = '/' then
        -- `tok.value += ch; ++next;` then `if (next != end)` inspects `*next`.
        if hnext : pos + 1 < input.length then
          if input[pos + 1] = '*' then
            tokFuncPos .blockComment opened ⟨.blockComment, tok.value ++ ['/', '*']⟩
              input (pos + 2)
          else if input[pos + 1] = '/' then
            tokFuncPos .eolComment opened ⟨.eolComment, tok.value ++ ['/', '/']⟩
              input (pos + 2)
          else
            -- Fall through: `tok.value += ch; ++next;` appends the slash a
            -- second time and skips the inspected character.
            tokFuncPos .token opened ⟨.token, tok.value ++ ['/', '/']⟩ input (pos + 2)
        else
          -- `next == end` after the first advance; the fall-through still
          -- appends the slash again and advances the cursor a second time,
          -- moving it past the end.
          tokFuncPos .token opened ⟨.token, tok.value ++ ['/', '/']⟩ input (pos + 2)
      else
        tokFuncPos .token opened ⟨.token, tok.value ++ [ch]⟩ input (pos + 1)
    | .bracedBlock =>
      if ch = openingBrace then
        tokFuncPos .bracedBlock (opened + 1) ⟨tok.type, tok.value ++ [ch]⟩ input (pos + 1)
      else if ch = closingBrace then
        if opened - 1 = 0 then .found ⟨tok.type, tok.value ++ [ch]⟩ (pos + 1)
        else tokFuncPos .bracedBlock (opened - 1) ⟨tok.type, tok.value ++ [ch]⟩
          input (pos + 1)
      else if ch = quoteChar then
        tokFuncPos .quotedStringWithinBlock opened ⟨tok.type, tok.value ++ [ch]⟩
          input (pos + 1)
      else
        tokFuncPos .bracedBlock opened ⟨tok.type, tok.value ++ [ch]⟩ input (pos + 1)
    | .quotedStringWithinBlock =>
      if ch = quoteChar then
        tokFuncPos .bracedBlock opened ⟨tok.type, tok.value ++ [ch]⟩ input (pos + 1)
      else
        tokFuncPos .quotedStringWithinBlock opened ⟨tok.type, tok.value ++ [ch]⟩
          input (pos + 1)
    | .whitespace =>
      if IsWhitespace ch then
        tokFuncPos .whitespace opened ⟨tok.type, tok.value ++ [ch]⟩ input (pos + 1)
      else .found tok pos
    | .blockComment =>
      -- `tok.value += ch; ++next;` then `ch == '*' && next != end && *next == '/'`.
      if ch = '*' then
        if hnext : pos + 1 < input.length then
          if input[pos + 1] = '/' then .found ⟨tok.type, tok.value ++ ['*', '/']⟩ (pos + 2)
          else tokFuncPos .blockComment opened ⟨tok.type, tok.value ++ [ch]⟩ input (pos + 1)
        else tokFuncPos .blockComment opened ⟨tok.type, tok.value ++ [ch]⟩ input (pos + 1)
      else tokFuncPos .blockComment opened ⟨tok.type, tok.value ++ [ch]⟩ input (pos + 1)
    | .eolComment =>
      if ch = '\r' || ch = '\n' then .found tok pos
      else tokFuncPos .eolComment opened ⟨tok.type, tok.value ++ [ch]⟩ input (pos + 1)
    | .token =>
      if ch = openingBrace || ch = closingBrace then .found tok pos
      else if ch = '/' then
        -- `next.peek()`: the character after the cursor, or the null
        -- character when the cursor is on the last character.
        if (if hnext : pos + 1 < input.length then input[pos + 1] else '\x00') = '*'
            || (if hnext : pos + 1 < input.length then input[pos + 1] else '\x00') = '/' then
          .found tok pos
        else tokFuncPos .token opened ⟨tok.type, tok.value ++ [ch]⟩ input (pos + 1)
      else if IsWhitespace ch then .found tok pos
      else tokFuncPos .token opened ⟨tok.type, tok.value ++ [ch]⟩ input (pos + 1)
  else
    -- `next != end` holds yet the cursor is beyond the end: `*next` is an
    -- out-of-bounds read.
    .outOfBounds pos
termination_by input.length + 2 - pos
decreasing_by all_goals omega

/-!
Syntax tree model. The C++ node classes are `DefWhitespaceSyntax`,
`DefCommentSyntax`, `DefTypeSyntax` and `DefNameSyntax` (leaf nodes wrapping
one token), `DefBlockSyntax` (block token plus header nodes plus name/type
indices) and the plain `Root` node holding the list of top-level children.
Children and header nodes are `shared_ptr`s that can be null, hence the
`Option` wrappers.
-/

/-- Leaf nodes: mirrors `DefWhitespaceSyntax`, `DefCommentSyntax`,
`DefTypeSyntax` and `DefNameSyntax`, each holding its `DefSyntaxToken`. -/
inductive DefLeaf where
  | whitespace (tok : DefSyntaxToken)
  | comment (tok : DefSyntaxToken)
  | declType (tok : DefSyntaxToken)
  | declName (tok : DefSyntaxToken)
deriving DecidableEq, Repr

/-- Mirrors `DefBlockSyntax`: the braced-block token, the header nodes
(`shared_ptr`s, possibly null), and the `nameIndex`/`typeIndex` constructor
arguments (`-1` meaning "not present") from which `_name` and `_type` are
extracted. -/
structure DefBlockNode where
  blockToken : DefSyntaxToken
  headerNodes : List (Option DefLeaf)
  nameIndex : Int
  typeIndex : Int
deriving DecidableEq, Repr

/-- A top-level child of the `Root` node. -/
inductive DefTopNode where
  | leaf (l : DefLeaf)
  | block (b : DefBlockNode)
deriving DecidableEq, Repr

/-- The assertions executed by the `DefBlockSyntax` constructor:
`assert(_blockToken.type == DefSyntaxToken::Type::BracedBlock)` and
`assert(nameIndex >= 0)`. -/
def defBlockCtorAssert (blockToken : DefSyntaxToken) (nameIndex : Int) : Prop :=
  blockToken.type = DefTokenType.bracedBlock ∧ 0 ≤ nameIndex

instance (blockToken : DefSyntaxToken) (nameIndex : Int) :
    Decidable (defBlockCtorAssert blockToken nameIndex) := by
  unfold defBlockCtorAssert; infer_instance

/-- Mirrors the `_name` member extraction in the `DefBlockSyntax` constructor
(`if (nameIndex != -1) _name = cast(_headerNodes.at(nameIndex))`) combined
with `getName()`. -/
def DefBlockNode.name? (b : DefBlockNode) : Option DefLeaf :=
  if b.nameIndex ≠ -1 then (b.headerNodes.get? b.nameIndex.toNat).join else none

/-- Mirrors the `_type` member extraction in the `DefBlockSyntax` constructor
combined with `getType()`. -/
def DefBlockNode.type? (b : DefBlockNode) : Option DefLeaf :=
  if b.typeIndex ≠ -1 then (b.headerNodes.get? b.typeIndex.toNat).join else none

/-- Mirrors the overridden `getString()` of the four leaf node classes: each
returns its token's raw value. -/
def leafString : DefLeaf → List Char
  | .whitespace tok => tok.value
  | .comment tok => tok.value
  | .declType tok => tok.value
  | .declName tok => tok.value

/-- Mirrors `DefBlockSyntax::getString()`: header nodes are concatenated
(null headers are skipped via `if (!headerNode) continue;`), then the raw
block token value is appended. -/
def blockString (b : DefBlockNode) : List Char :=
  (b.headerNodes.map (fun h => match h with | none => [] | some l => leafString l)).flatten
    ++ b.blockToken.value

/-- Mirrors `getString()` of one top-level child as dereferenced by the Root node's
`DefSyntaxNode::getString()`. A null child (`none`) is dereferenced without a
check — undefined behaviour in C++ — modelled as `none`. -/
def childString : Option DefTopNode → Option (List Char)
  | none => none
  | some (.leaf l) => some (leafString l)
  | some (.block b) => some (blockString b)

/-- Mirrors `DefSyntaxNode::getString()` on the Root node (and hence
`DefSyntaxTree::getString()`): the concatenation of every child's string, or
`none` if any child pointer is null. -/
def rootString (children : List (Option DefTopNode)) : Option (List Char) :=
  (children.mapM childString).map List.flatten

/-- Warnings sent to `rWarning()` during parsing. -/
inductive ParseWarning where
  | unnamedBlock (blockValue : List Char)
  | invalidHeaderCount
deriving DecidableEq, Repr

/-- Mirrors `DefBlockSyntaxParser::parseBlock`: arguments are the remaining
token stream, the accumulated `headerNodes`, `nameIndex` and `typeIndex`.
Returns the block (null if the stream was exhausted before a braced block
arrived), the remaining tokens, and the warnings emitted. -/
def parseBlockLoop : List DefSyntaxToken → List (Option DefLeaf) → Int → Int →
    Option DefBlockNode × List DefSyntaxToken × List ParseWarning
  | [], _, _, _ => (none, [], [])
  | tok :: rest, headerNodes, nameIndex, typeIndex =>
    match tok.type with
    | .blockComment =>
      parseBlockLoop rest (headerNodes ++ [some (.comment tok)]) nameIndex typeIndex
    | .eolComment =>
      parseBlockLoop rest (headerNodes ++ [some (.comment tok)]) nameIndex typeIndex
    | .whitespace =>
      parseBlockLoop rest (headerNodes ++ [some (.whitespace tok)]) nameIndex typeIndex
    | .bracedBlock =>
      -- The braced block token concludes this decl block.
      (some ⟨tok, headerNodes, nameIndex, typeIndex⟩, rest, [])
    | .token =>
      if nameIndex = -1 then
        -- No name yet, assume this is the name.
        parseBlockLoop rest (headerNodes ++ [some (.declName tok)])
          (Int.ofNat headerNodes.length) typeIndex
      else if typeIndex = -1 then
        -- The first token is the type: the node at the old name index is
        -- replaced by a `DefTypeSyntax` built from the old name's token, and
        -- the new token becomes the name, appended at the end.
        parseBlockLoop rest
          ((headerNodes.set nameIndex.toNat (some (.declType
              (match headerNodes.get? nameIndex.toNat with
                | some (some (.declName t)) => t
                | _ => ⟨.nothing, []⟩))))
            ++ [some (.declName tok)])
          (Int.ofNat headerNodes.length) nameIndex
      else
        -- `rWarning() << "Invalid number of decl block headers, ..."`;
        -- the token is discarded.
        let result := parseBlockLoop rest headerNodes nameIndex typeIndex
        (result.1, result.2.1, ParseWarning.invalidHeaderCount :: result.2.2)
    | .nothing =>
      -- The C++ switch has no case for `Nothing`: the token was already
      -- consumed by `*_tokIter++`, so it is simply ignored.
      parseBlockLoop rest headerNodes nameIndex typeIndex

/-- Mirrors the loop of `DefBlockSyntaxParser::parse`, fuelled with one unit
per iteration (each iteration consumes at least one token, so
`tokens.length + 1` units always suffice, see `parseTokensFuel_congr`).
Returns the children appended to the Root node plus the emitted warnings.

The C++ switch has no case for a `Nothing` token and would loop forever
without advancing the iterator; the tokeniser never emits such a token
(`tokenise_no_nothing`), and the model skips it to stay total. -/
def parseTokensFuel : Nat → List DefSyntaxToken →
    List (Option DefTopNode) × List ParseWarning
  | 0, _ => ([], [])
  | _ + 1, [] => ([], [])
  | fuel + 1, tok :: rest =>
    match tok.type with
    | .blockComment =>
      let r := parseTokensFuel fuel rest
      (some (.leaf (.comment tok)) :: r.1, r.2)
    | .eolComment =>
      let r := parseTokensFuel fuel rest
      (some (.leaf (.comment tok)) :: r.1, r.2)
    | .whitespace =>
      let r := parseTokensFuel fuel rest
      (some (.leaf (.whitespace tok)) :: r.1, r.2)
    | .bracedBlock =>
      -- `rWarning() << "Unnamed block encountered: " << token.value` and the
      -- block is constructed with the default indices `-1`/`-1`.
      let r := parseTokensFuel fuel rest
      (some (.block ⟨tok, [], -1, -1⟩) :: r.1,
        ParseWarning.unnamedBlock tok.value :: r.2)
    | .token =>
      -- `parseBlock()` is entered with the iterator still on this token.
      let pb := parseBlockLoop (tok :: rest) [] (-1) (-1)
      let r := parseTokensFuel fuel pb.2.1
      ((pb.1.map DefTopNode.block) :: r.1, pb.2.2 ++ r.2)
    | .nothing =>
      parseTokensFuel fuel rest

/-- The children the parser appends to the Root node, plus all warnings. -/
def parseTokens (tokens : List DefSyntaxToken) :
    List (Option DefTopNode) × List ParseWarning :=
  parseTokensFuel (tokens.length + 1) tokens

/-- Runs `DefBlockSyntaxParser::parse` on a whole input text: tokenise, then build
the tree. The result is the Root node's child list plus warnings. -/
def parseTree (input : List Char) : List (Option DefTopNode) × List ParseWarning :=
  parseTokens (tokenise input)

/-- Computes `DefSyntaxTree::getString()` of the tree parsed from `input`. -/
def treeGetString (input : List Char) : Option (List Char) :=
  rootString (parseTree input).1

/-- Modelled from the spec: the body of `string::trim_copy` (libs/string/trim.h)
is not under src/. `DefBlockSyntax::getBlockContents` calls
`string::trim_copy(_blockToken.value, "\x7b\x7d")` to strip the braces; the
spec describes the result as the "raw opaque content between `\x7b`/`\x7d`",
so the outermost brace pair is removed where present. -/
def stripOuterBraces (v : List Char) : List Char :=
  let v1 := match v with
    | c :: rest => if c = openingBrace then rest else v
    | [] => []
  if v1.getLast? = some closingBrace then v1.dropLast else v1

/-- Mirrors `DefBlockSyntax::getBlockContents`: returns the raw block contents
without the opening and closing braces. -/
def DefBlockNode.getBlockContents (b : DefBlockNode) : List Char :=
  stripOuterBraces b.blockToken.value

/-!
Declaration registry. `DeclarationManager.h` (under src/) declares
`registerDeclType(typeName, creator)` and holds the
`_creatorsByTypename` map; the implementation file is not under src/.
-/

/-- Modelled from the spec: the body of `DeclarationManager::registerDeclType`
is not under src/ (only its declaration in DeclarationManager.h and its test
in test/DeclManager.cpp are). The registry's `_creatorsByTypename` map is
modelled as an association list; creators are identified by a numeric id, so
that distinct creator instances can be told apart. -/
structure DeclManagerRegistry where
  creatorsByTypename : List (String × Nat)
deriving DecidableEq, Repr

/-- The failure conditions of the registration operations; the test expects a
`std::logic_error` to be thrown. -/
inductive DeclRegError where
  | alreadyRegistered
  | notRegistered
deriving DecidableEq, Repr

/-- Modelled from the spec: `registerDeclType(typeName, creator)` "binds a
textual keyword and the creator's Type. Fails with an 'already registered'
condition if that keyword is already bound, even to a different creator
instance." On failure the registry is left untouched (the error is a usage
fault which is "never auto-corrected"). -/
def registerDeclType (reg : DeclManagerRegistry) (typeName : String)
    (creator : Nat) : Except DeclRegError DeclManagerRegistry :=
  if (reg.creatorsByTypename.map Prod.fst).contains typeName then
    Except.error DeclRegError.alreadyRegistered
  else
    Except.ok ⟨reg.creatorsByTypename ++ [(typeName, creator)]⟩

/-!
Helper lemmas.
-/

/-- Definitional unfolding of the tokeniser loop at the end of the input:
`return !tok.value.empty();`. -/
theorem tokFunc_nil (st : TokState) (opened : Nat) (tok : DefSyntaxToken) :
    tokFunc st opened tok [] = (if tok.value = [] then none else some tok, []) := by
  cases st <;> rfl

/-- Definitional unfolding of one `State::Searching` loop iteration. -/
theorem tokFunc_cons_searching (opened : Nat) (tok : DefSyntaxToken)
    (ch : Char) (rest : List Char) :
    tokFunc .searching opened tok (ch :: rest) =
      if IsWhitespace ch then
        tokFunc .whitespace opened ⟨.whitespace, tok.value ++ [ch]⟩ rest
      else if ch = openingBrace then
        tokFunc .bracedBlock 1 ⟨.bracedBlock, tok.value ++ [ch]⟩ rest
      else if ch = '/' then
        match rest with
        | [] => tokFunc .token opened ⟨.token, tok.value ++ ['/', '/']⟩ []
        | c :: rest2 =>
          if c = '*' then
            tokFunc .blockComment opened ⟨.blockComment, tok.value ++ ['/', '*']⟩ rest2
          else if c = '/' then
            tokFunc .eolComment opened ⟨.eolComment, tok.value ++ ['/', '/']⟩ rest2
          else
            tokFunc .token opened ⟨.token, tok.value ++ ['/', '/']⟩ rest2
      else tokFunc .token opened ⟨.token, tok.value ++ [ch]⟩ rest := by
  cases rest <;> rfl

/-- Definitional unfolding of one `State::Whitespace` loop iteration. -/
theorem tokFunc_cons_whitespace (opened : Nat) (tok : DefSyntaxToken)
    (ch : Char) (rest : List Char) :
    tokFunc .whitespace opened tok (ch :: rest) =
      if IsWhitespace ch then
        tokFunc .whitespace opened ⟨tok.type, tok.value ++ [ch]⟩ rest
      else (some tok, ch :: rest) := rfl

/-- Definitional unfolding of one `State::BracedBlock` loop iteration. -/
theorem tokFunc_cons_braced (opened : Nat) (tok : DefSyntaxToken)
    (ch : Char) (rest : List Char) :
    tokFunc .bracedBlock opened tok (ch :: rest) =
      if ch = openingBrace then
        tokFunc .bracedBlock (opened + 1) ⟨tok.type, tok.value ++ [ch]⟩ rest
      else if ch = closingBrace then
        if opened - 1 = 0 then (some ⟨tok.type, tok.value ++ [ch]⟩, rest)
        else tokFunc .bracedBlock (opened - 1) ⟨tok.type, tok.value ++ [ch]⟩ rest
      else if ch = quoteChar then
        tokFunc .quotedStringWithinBlock opened ⟨tok.type, tok.value ++ [ch]⟩ rest
      else tokFunc .bracedBlock opened ⟨tok.type, tok.value ++ [ch]⟩ rest := rfl

/-- Definitional unfolding of one `State::QuotedStringWithinBlock` loop
iteration. -/
theorem tokFunc_cons_quoted (opened : Nat) (tok : DefSyntaxToken)
    (ch : Char) (rest : List Char) :
    tokFunc .quotedStringWithinBlock opened tok (ch :: rest) =
      if ch = quoteChar then
        tokFunc .bracedBlock opened ⟨tok.type, tok.value ++ [ch]⟩ rest
      else
        tokFunc .quotedStringWithinBlock opened ⟨tok.type, tok.value ++ [ch]⟩ rest := rfl

/-- Definitional unfolding of one `State::BlockComment` loop iteration. -/
theorem tokFunc_cons_blockComment (opened : Nat) (tok : DefSyntaxToken)
    (ch : Char) (rest : List Char) :
    tokFunc .blockComment opened tok (ch :: rest) =
      if ch = '*' then
        match rest with
        | '/' :: rest2 => (some ⟨tok.type, tok.value ++ ['*', '/']⟩, rest2)
        | _ => tokFunc .blockComment opened ⟨tok.type, tok.value ++ [ch]⟩ rest
      else tokFunc .blockComment opened ⟨tok.type, tok.value ++ [ch]⟩ rest := rfl

/-- Definitional unfolding of one `State::EolComment` loop iteration. -/
theorem tokFunc_cons_eol (opened : Nat) (tok : DefSyntaxToken)
    (ch : Char) (rest : List Char) :
    tokFunc .eolComment opened tok (ch :: rest) =
      if ch = '\r' || ch = '\n' then (some tok, ch :: rest)
      else tokFunc .eolComment opened ⟨tok.type, tok.value ++ [ch]⟩ rest := rfl

/-- Definitional unfolding of one `State::Token` loop iteration. -/
theorem tokFunc_cons_token (opened : Nat) (tok : DefSyntaxToken)
    (ch : Char) (rest : List Char) :
    tokFunc .token opened tok (ch :: rest) =
      if ch = openingBrace || ch = closingBrace then (some tok, ch :: rest)
      else if ch = '/' then
        if (match rest with | [] => '\x00' | c :: _ => c) = '*'
            || (match rest with | [] => '\x00' | c :: _ => c) = '/' then
          (some tok, ch :: rest)
        else tokFunc .token opened ⟨tok.type, tok.value ++ [ch]⟩ rest
      else if IsWhitespace ch then (some tok, ch :: rest)
      else tokFunc .token opened ⟨tok.type, tok.value ++ [ch]⟩ rest := rfl

/-- Once the accumulated token value is non-empty, the tokeniser function can
no longer report exhaustion: every loop exit returns the token. -/
theorem tokFunc_isSome (st : TokState) (opened : Nat) (tok : DefSyntaxToken)
    (input : List Char) (h : tok.value ≠ []) :
    ((tokFunc st opened tok input).1).isSome := by
  induction st, opened, tok, input using tokFunc.induct <;>
    simp_all [tokFunc_nil, tokFunc_cons_searching, tokFunc_cons_whitespace,
      tokFunc_cons_braced, tokFunc_cons_quoted, tokFunc_cons_blockComment,
      tokFunc_cons_eol, tokFunc_cons_token]

/-- On a non-empty input, one invocation of the tokeniser function always
finds a token: the `Searching` state consumes the first character in every
branch, after which the value is non-empty. -/
theorem nextToken_isSome (ch : Char) (rest : List Char) :
    ((nextToken (ch :: rest)).1).isSome := by
  show ((tokFunc .searching 0 ⟨.nothing, []⟩ (ch :: rest)).1).isSome
  rw [tokFunc_cons_searching]
  split
  · exact tokFunc_isSome _ _ _ _ (by simp)
  · split
    · exact tokFunc_isSome _ _ _ _ (by simp)
    · split
      · split
        · exact tokFunc_isSome _ _ _ _ (by simp)
        · split
          · exact tokFunc_isSome _ _ _ _ (by simp)
          · split
            · exact tokFunc_isSome _ _ _ _ (by simp)
            · exact tokFunc_isSome _ _ _ _ (by simp)
      · exact tokFunc_isSome _ _ _ _ (by simp)

/-- The remaining token stream returned by `parseBlockLoop` is a suffix of its
input, in particular no longer than it. -/
theorem parseBlockLoop_rest_le (ts : List DefSyntaxToken)
    (headerNodes : List (Option DefLeaf)) (nameIndex typeIndex : Int) :
    ((parseBlockLoop ts headerNodes nameIndex typeIndex).2.1).length ≤ ts.length := by
  induction ts, headerNodes, nameIndex, typeIndex using parseBlockLoop.induct <;>
    simp_all [parseBlockLoop] <;> omega

/-- Lemma: `parseBlockLoop` consumes at least the token it was entered on. -/
theorem parseBlockLoop_cons_lt (tok : DefSyntaxToken) (rest : List DefSyntaxToken)
    (headerNodes : List (Option DefLeaf)) (nameIndex typeIndex : Int) :
    ((parseBlockLoop (tok :: rest) headerNodes nameIndex typeIndex).2.1).length
      ≤ rest.length := by
  rcases tok with ⟨ty, v⟩
  cases ty
  case nothing =>
    simp only [parseBlockLoop]
    exact parseBlockLoop_rest_le _ _ _ _
  case whitespace =>
    simp only [parseBlockLoop]
    exact parseBlockLoop_rest_le _ _ _ _
  case bracedBlock => simp [parseBlockLoop]
  case eolComment =>
    simp only [parseBlockLoop]
    exact parseBlockLoop_rest_le _ _ _ _
  case blockComment =>
    simp only [parseBlockLoop]
    exact parseBlockLoop_rest_le _ _ _ _
  case token =>
    simp only [parseBlockLoop]
    split
    · exact parseBlockLoop_rest_le _ _ _ _
    · split
      · exact parseBlockLoop_rest_le _ _ _ _
      · exact parseBlockLoop_rest_le _ _ _ _

/-- Fuel irrelevance for the parse loop: any fuel beyond the number of tokens
gives the same result. -/
theorem parseTokensFuel_congr (fuel fuel' : Nat) (ts : List DefSyntaxToken)
    (h : ts.length < fuel) (h' : ts.length < fuel') :
    parseTokensFuel fuel ts = parseTokensFuel fuel' ts := by
  induction fuel generalizing fuel' ts with
  | zero => omega
  | succ fuel ih =>
    cases fuel' with
    | zero => omega
    | succ fuel' =>
      cases ts with
      | nil => rfl
      | cons tok rest =>
        simp only [parseTokensFuel]
        rcases tok with ⟨ty, v⟩
        have hr : rest.length < fuel := by simp at h; omega
        have hr' : rest.length < fuel' := by simp at h'; omega
        cases ty <;> simp only []
        · rw [ih fuel' rest hr hr']
        · rw [ih fuel' rest hr hr']
        · rw [ih fuel' rest hr hr']
        · have hb := parseBlockLoop_cons_lt ⟨.token, v⟩ rest [] (-1) (-1)
          rw [ih fuel' (parseBlockLoop (⟨.token, v⟩ :: rest) [] (-1) (-1)).2.1
            (by omega) (by omega)]
        · rw [ih fuel' rest hr hr']
        · rw [ih fuel' rest hr hr']

/-- Unfolding lemma for `parseTokens` at a bare token: the block parser is
entered on the current token and the main loop continues on what it leaves
behind. -/
theorem parseTokens_cons_token (v : List Char) (rest : List DefSyntaxToken) :
    parseTokens (⟨.token, v⟩ :: rest) =
      (((parseBlockLoop (⟨.token, v⟩ :: rest) [] (-1) (-1)).1.map DefTopNode.block)
          :: (parseTokens (parseBlockLoop (⟨.token, v⟩ :: rest) [] (-1) (-1)).2.1).1,
        (parseBlockLoop (⟨.token, v⟩ :: rest) [] (-1) (-1)).2.2
          ++ (parseTokens (parseBlockLoop (⟨.token, v⟩ :: rest) [] (-1) (-1)).2.1).2) := by
  have hb := parseBlockLoop_cons_lt ⟨.token, v⟩ rest [] (-1) (-1)
  show parseTokensFuel (rest.length + 1 + 1) _ = _
  simp only [parseTokensFuel]
  rw [parseTokensFuel_congr (rest.length + 1)
    ((parseBlockLoop (⟨.token, v⟩ :: rest) [] (-1) (-1)).2.1.length + 1) _
    (by omega) (by omega)]
  rfl

/-- The tokeniser function never returns a token whose type is still
`Nothing`: whenever the accumulated token already has a type other than
`Nothing`, the result keeps a type other than `Nothing` (the `Searching`
state sets the type before every recursive step, every other state preserves
it). -/
theorem tokFunc_type_ne_nothing (st : TokState) (opened : Nat)
    (tok : DefSyntaxToken) (input : List Char) (h : tok.type ≠ .nothing) :
    ∀ tk rest2, tokFunc st opened tok input = (some tk, rest2) →
      tk.type ≠ .nothing := by
  induction st, opened, tok, input using tokFunc.induct <;>
    simp_all [tokFunc_nil, tokFunc_cons_searching, tokFunc_cons_whitespace,
      tokFunc_cons_braced, tokFunc_cons_quoted, tokFunc_cons_blockComment,
      tokFunc_cons_eol, tokFunc_cons_token]
  all_goals
    intro tk rest2 _ htk _
    subst htk
    exact h

/-- Every token emitted by one tokeniser invocation has a type other than
`Nothing`, so the missing `Nothing` case in the parse loops is never hit. -/
theorem nextToken_type_ne_nothing (input : List Char) (tk : DefSyntaxToken)
    (rest2 : List Char) (h : nextToken input = (some tk, rest2)) :
    tk.type ≠ .nothing := by
  cases input with
  | nil => simp [nextToken, tokFunc_nil] at h
  | cons ch rest =>
    have hs : (nextToken (ch :: rest)) = (some tk, rest2) := h
    rw [show nextToken (ch :: rest)
        = tokFunc .searching 0 ⟨.nothing, []⟩ (ch :: rest) from rfl,
      tokFunc_cons_searching] at hs
    split at hs
    · exact tokFunc_type_ne_nothing _ _ _ _ (by simp) _ _ hs
    · split at hs
      · exact tokFunc_type_ne_nothing _ _ _ _ (by simp) _ _ hs
      · split at hs
        · split at hs
          · exact tokFunc_type_ne_nothing _ _ _ _ (by simp) _ _ hs
          · split at hs
            · exact tokFunc_type_ne_nothing _ _ _ _ (by simp) _ _ hs
            · split at hs
              · exact tokFunc_type_ne_nothing _ _ _ _ (by simp) _ _ hs
              · exact tokFunc_type_ne_nothing _ _ _ _ (by simp) _ _ hs
        · exact tokFunc_type_ne_nothing _ _ _ _ (by simp) _ _ hs

/-- No token in the stream handed to the parser has type `Nothing`. -/
theorem tokenise_no_nothing (input : List Char) :
    ∀ tk ∈ tokenise input, tk.type ≠ DefTokenType.nothing := by
  show ∀ tk ∈ tokeniseFuel (input.length + 1) input, tk.type ≠ .nothing
  generalize input.length + 1 = fuel
  induction fuel generalizing input with
  | zero => simp [tokeniseFuel]
  | succ fuel ih =>
    rw [tokeniseFuel]
    split
    · simp
    · rename_i tok rest heq
      intro tk htk
      rcases List.mem_cons.mp htk with h | h
      · subst h
        exact nextToken_type_ne_nothing input tk rest heq
      · exact ih rest tk h

/-!
Claim theorems.
-/

/-- The block node built for the header sequence type-token, name-token. -/
def twoHeaderBlock (v1 v2 bv : List Char) : DefBlockNode :=
  ⟨⟨.bracedBlock, bv⟩,
    [some (.declType ⟨.token, v1⟩), some (.declName ⟨.token, v2⟩)], 1, 0⟩

/-- The block node built for a single name-token header. -/
def oneHeaderBlock (v1 bv : List Char) : DefBlockNode :=
  ⟨⟨.bracedBlock, bv⟩, [some (.declName ⟨.token, v1⟩)], 0, -1⟩

/-- C1: the spec claims a byte-for-byte round-trip for every input made of
whitespace, comments and well-formed declaration blocks. The code violates
this: on the six-character input slash,a,space,open-brace,x,close-brace (a
declaration block whose name token starts with a slash) the `Searching`
state's slash branch falls through to the generic token branch, appending
the slash a second time and skipping the following character, so the
reconstructed text differs from the input. -/
theorem roundTrip_fails_on_slash_name :
    treeGetString ['/', 'a', ' ', '\x7b', 'x', '\x7d']
      = some ['/', '/', ' ', '\x7b', 'x', '\x7d']
    ∧ (['/', '/', ' ', '\x7b', 'x', '\x7d'] : List Char)
      ≠ ['/', 'a', ' ', '\x7b', 'x', '\x7d'] :=
  ⟨rfl, by decide⟩

/-- C2: the claim says a slash not followed by star or slash is kept exactly
once and the following character is not skipped. The code violates this: on
input slash,a the emitted bare token is a double slash and the a is gone. -/
theorem bare_token_leading_slash_doubled :
    nextToken ['/', 'a'] = (some ⟨.token, ['/', '/']⟩, [])
    ∧ (['/', '/'] : List Char) ≠ ['/', 'a'] :=
  ⟨rfl, by decide⟩

/-- C3 counterexample: on the top-level anonymous block open-brace,x,
close-brace the parser does append a DeclBlock with no name and no type and
logs the warning, but the `DefBlockSyntax` constructor is invoked with
`nameIndex = -1`, so its assertion `nameIndex >= 0` does not hold —
contradicting the claim that every constructor assertion holds. -/
theorem anonymousBlock_assert_violated :
    parseTree ['\x7b', 'x', '\x7d']
      = ([some (.block ⟨⟨.bracedBlock, ['\x7b', 'x', '\x7d']⟩, [], -1, -1⟩)],
         [ParseWarning.unnamedBlock ['\x7b', 'x', '\x7d']])
    ∧ ¬ defBlockCtorAssert ⟨.bracedBlock, ['\x7b', 'x', '\x7d']⟩ (-1) :=
  ⟨rfl, by decide⟩

/-- C3 as amended: a braced block at top level with no preceding identifier
is accepted as an anonymous block — a DeclBlock with no name and no type is
appended to Root together with an "Unnamed block" warning, and the block's
source text is preserved — but the constructor's `nameIndex >= 0` assertion
is violated (the construction passes `nameIndex = -1`; only the
braced-block-token assertion holds). -/
theorem anonymousBlock_accepted (v : List Char) (rest : List DefSyntaxToken) :
    parseTokens (⟨.bracedBlock, v⟩ :: rest)
      = (some (.block ⟨⟨.bracedBlock, v⟩, [], -1, -1⟩) :: (parseTokens rest).1,
         ParseWarning.unnamedBlock v :: (parseTokens rest).2)
    ∧ blockString ⟨⟨.bracedBlock, v⟩, [], -1, -1⟩ = v
    ∧ DefBlockNode.name? ⟨⟨.bracedBlock, v⟩, [], -1, -1⟩ = none
    ∧ DefBlockNode.type? ⟨⟨.bracedBlock, v⟩, [], -1, -1⟩ = none
    ∧ ¬ defBlockCtorAssert ⟨.bracedBlock, v⟩ (-1) := by
  refine ⟨rfl, ?_, rfl, rfl, ?_⟩
  · simp [blockString]
  · intro hc
    exact absurd hc.2 (by decide)

/-- C4: the claim says every child appended to Root is non-null and
getString() is always well-defined. The code violates this: on the input
f,o,o — a bare token never followed by a braced block — `parseBlock` runs
out of tokens and returns a null pointer, which `parse` appends to Root;
getString() then dereferences the null child (modelled as `none`). -/
theorem trailing_token_appends_null_child :
    parseTree ['f', 'o', 'o'] = ([none], [])
    ∧ treeGetString ['f', 'o', 'o'] = none :=
  ⟨rfl, rfl⟩

/-- C5: the claim says the tokeniser is total and never raises a hard error —
for every input and cursor position it either emits a token or reports
exhaustion. The code violates this: on the one-character input consisting of
a single slash, the `State::Searching` slash branch advances the cursor to
the end, the inner `if (next != end)` check fails, and the fall-through
appends the slash again and advances the raw string cursor a second time —
past the end. The loop guard `next != end` then still holds (position 2
against end position 1), so the next iteration dereferences an out-of-bounds
cursor: undefined behaviour, neither a token nor exhaustion. The theorem
evaluates the faithful cursor model at that input. -/
theorem tokeniser_runs_past_end_on_trailing_slash :
    tokFuncPos .searching 0 ⟨.nothing, []⟩ ['/'] 0 = TokOutcome.outOfBounds 2 := by
  rw [tokFuncPos]
  norm_num [IsWhitespace, openingBrace]
  rw [if_neg (by decide), if_neg (by decide), tokFuncPos]
  norm_num

/-- The C6 example input: open-brace, space, k, e, y, space, quote, a,
space, close-brace, space, b, quote, space, m, o, r, e, space, close-brace. -/
def c6Input : List Char :=
  ['\x7b', ' ', 'k', 'e', 'y', ' ', '\x22', 'a', ' ', '\x7d', ' ', 'b',
   '\x22', ' ', 'm', 'o', 'r', 'e', ' ', '\x7d']

/-- C6: the example input tokenizes as one single braced-block token spanning
the whole input (the quoted close-brace does not close the block early); and
in general, inside the quoted-string sub-state any character other than the
quote is consumed without touching the brace-depth counter or the state,
while the quote returns to the braced-block state. -/
theorem quoted_braces_ignored :
    tokenise c6Input = [⟨.bracedBlock, c6Input⟩]
    ∧ (∀ opened tok ch rest, ch ≠ quoteChar →
        tokFunc .quotedStringWithinBlock opened tok (ch :: rest)
          = tokFunc .quotedStringWithinBlock opened ⟨tok.type, tok.value ++ [ch]⟩ rest)
    ∧ (∀ opened tok rest,
        tokFunc .quotedStringWithinBlock opened tok (quoteChar :: rest)
          = tokFunc .bracedBlock opened ⟨tok.type, tok.value ++ [quoteChar]⟩ rest) := by
  refine ⟨rfl, ?_, ?_⟩
  · intro opened tok ch rest h
    rw [tokFunc_cons_quoted, if_neg h]
  · intro opened tok rest
    rw [tokFunc_cons_quoted, if_pos rfl]

/-- C6 witness: a close-brace inside a quoted string is consumed with the
depth counter untouched. -/
theorem quoted_braces_ignored_witness :
    tokFunc .quotedStringWithinBlock 1 ⟨.bracedBlock, []⟩ ['\x7d']
      = tokFunc .quotedStringWithinBlock 1 ⟨.bracedBlock, ['\x7d']⟩ [] :=
  quoted_braces_ignored.2.1 1 ⟨.bracedBlock, []⟩ '\x7d' [] (by decide)

/-- C7: the token sequence Token Token BracedBlock yields a DeclBlock whose
type node's text is the first token's raw text and whose name node's text is
the second token's raw text; the sequence Token BracedBlock yields a
DeclBlock with no type node and a name node carrying that token's text. -/
theorem header_token_classification (v1 v2 bv : List Char)
    (rest : List DefSyntaxToken) :
    (parseBlockLoop (⟨.token, v1⟩ :: ⟨.token, v2⟩ :: ⟨.bracedBlock, bv⟩ :: rest)
        [] (-1) (-1) = (some (twoHeaderBlock v1 v2 bv), rest, [])
      ∧ ((twoHeaderBlock v1 v2 bv).type?).map leafString = some v1
      ∧ ((twoHeaderBlock v1 v2 bv).name?).map leafString = some v2)
    ∧ (parseBlockLoop (⟨.token, v1⟩ :: ⟨.bracedBlock, bv⟩ :: rest)
        [] (-1) (-1) = (some (oneHeaderBlock v1 bv), rest, [])
      ∧ (oneHeaderBlock v1 bv).type? = none
      ∧ ((oneHeaderBlock v1 bv).name?).map leafString = some v1) :=
  ⟨⟨rfl, rfl, rfl⟩, ⟨rfl, rfl, rfl⟩⟩

/-- C8: for a successfully closed block — whose braced-block token value is
an opening brace, then the raw content, then the matching closing brace —
getBlockContents returns exactly that content, with only the outermost brace
pair removed, whatever the content is (in particular when it itself begins
or ends with brace characters). -/
theorem getBlockContents_strips_outer_braces (mid : List Char)
    (headerNodes : List (Option DefLeaf)) (nameIndex typeIndex : Int) :
    DefBlockNode.getBlockContents
        ⟨⟨.bracedBlock, openingBrace :: (mid ++ [closingBrace])⟩,
          headerNodes, nameIndex, typeIndex⟩ = mid := by
  simp [DefBlockNode.getBlockContents, stripOuterBraces]

/-- C9: a third bare token before the braced block draws the invalid-header
warning and is discarded — it appears in no header node — while the block
still carries the type from the first token and the name from the second,
and the tokens after the block are still parsed by the main loop. -/
theorem third_header_token_rejected (v1 v2 v3 bv : List Char)
    (rest : List DefSyntaxToken) :
    parseBlockLoop
        (⟨.token, v1⟩ :: ⟨.token, v2⟩ :: ⟨.token, v3⟩ :: ⟨.bracedBlock, bv⟩ :: rest)
        [] (-1) (-1)
      = (some (twoHeaderBlock v1 v2 bv), rest, [ParseWarning.invalidHeaderCount])
    ∧ parseTokens
        (⟨.token, v1⟩ :: ⟨.token, v2⟩ :: ⟨.token, v3⟩ :: ⟨.bracedBlock, bv⟩ :: rest)
      = (some (.block (twoHeaderBlock v1 v2 bv)) :: (parseTokens rest).1,
         ParseWarning.invalidHeaderCount :: (parseTokens rest).2) := by
  have hpb : parseBlockLoop
      (⟨.token, v1⟩ :: ⟨.token, v2⟩ :: ⟨.token, v3⟩ :: ⟨.bracedBlock, bv⟩ :: rest)
      [] (-1) (-1)
      = (some (twoHeaderBlock v1 v2 bv), rest, [ParseWarning.invalidHeaderCount]) := rfl
  refine ⟨hpb, ?_⟩
  rw [parseTokens_cons_token, hpb]
  simp

/-- C10: registering a declaration type keyword that is already bound fails
with the already-registered condition, whatever creator instance is passed —
the call never modifies the registry. -/
theorem registerDeclType_fails_when_bound (reg : DeclManagerRegistry)
    (typeName : String) (creator : Nat)
    (h : (reg.creatorsByTypename.map Prod.fst).contains typeName = true) :
    registerDeclType reg typeName creator
      = Except.error DeclRegError.alreadyRegistered := by
  unfold registerDeclType
  rw [if_pos h]

/-- C10 witness: mirrors the DeclTypeRegistration test — the keyword
testdecl is bound to creator 1; re-registering it with the distinct creator
2 fails with the already-registered condition. -/
theorem registerDeclType_fails_when_bound_witness :
    registerDeclType ⟨[("testdecl", 1)]⟩ "testdecl" 2
      = Except.error DeclRegError.alreadyRegistered :=
  registerDeclType_fails_when_bound ⟨[("testdecl", 1)]⟩ "testdecl" 2 (by decide)

end DefBlock
